import Mathlib

set_option maxHeartbeats 1000000

/-!
Shallow embedding of `src/aoc24/part2.py` (AoC 2023 day 24, part 2).

The script builds, for every hailstone `i` and every axis `p ∈ {x,y,z}`, the
sympy expression `h.s[p] + h.d[p]*t_i - s_p - d_p*t_i` (lines 31-37), prints
each equation (lines 39-40), and asks `sympy.solve` for all unknowns jointly:
the six target components `sx,sy,sz,dx,dy,dz` and one time `t_i` per
hailstone, in the insertion order of the `Symbols.s` dict (lines 13-26, 42).
The first returned solution tuple is taken (line 43) and the program reports
`result[0] + result[1] + result[2]` (line 69).

Coordinates are parsed with Python `float` (lines 54-55); here hailstone
components live in `ℚ`, and the float conversion of an integer literal is
modelled separately by `floatRound` (round to nearest, 53-bit significand).

The generic solver `sympy.solve` is external; it is modelled by its contract:
any tuple it returns satisfies every submitted equation, and it returns at
least one tuple exactly when the system has a solution (`IsSolution`,
`Solvable`).
-/

/-- Unknowns of the sympy model: the six target-line components and one time
symbol `t i` per hailstone (`Symbols.__init__` and `Symbols._add_for_h`). -/
inductive Var : Type where
  | sx | sy | sz | dx | dy | dz
  | t (i : Nat)
deriving DecidableEq

/-- A parsed coordinate triple (the script stores a Python list of three
numbers; components are read by index). -/
structure Vec3 where
  x : ℚ
  y : ℚ
  z : ℚ
deriving DecidableEq

/-- Indexed access `v[0]`, `v[1]`, `v[2]` into a coordinate triple (only
indices 0, 1, 2 occur in the script). -/
def Vec3.comp (v : Vec3) : Nat → ℚ
  | 0 => v.x
  | 1 => v.y
  | _ => v.z

/-- Hailstone record `H` of the script: start `s` and velocity `d`. -/
structure H where
  s : Vec3
  d : Vec3
deriving DecidableEq

/-- Symbolic expression, mirroring the sympy expression tree the script
builds from constants, symbols, `+`, `-` and `*`. -/
inductive Expr : Type where
  | const (q : ℚ)
  | evar (v : Var)
  | add (a b : Expr)
  | sub (a b : Expr)
  | mul (a b : Expr)
deriving DecidableEq

/-- Value of an expression under an assignment of the symbols. -/
def Expr.eval (a : Var → ℚ) : Expr → ℚ
  | const q => q
  | evar v => a v
  | add e₁ e₂ => e₁.eval a + e₂.eval a
  | sub e₁ e₂ => e₁.eval a - e₂.eval a
  | mul e₁ e₂ => e₁.eval a * e₂.eval a

/-- Symbols occurring in an expression. -/
def Expr.varList : Expr → List Var
  | const _ => []
  | evar v => [v]
  | add e₁ e₂ => e₁.varList ++ e₂.varList
  | sub e₁ e₂ => e₁.varList ++ e₂.varList
  | mul e₁ e₂ => e₁.varList ++ e₂.varList

/-- Position symbol `s{p}` for axis `p` (line 36). -/
def posVar : Nat → Var
  | 0 => .sx
  | 1 => .sy
  | _ => .sz

/-- Velocity symbol `d{p}` for axis `p` (line 37). -/
def velVar : Nat → Var
  | 0 => .dx
  | 1 => .dy
  | _ => .dz

/-- Symbols put into `Symbols.s` by `__init__` (lines 17-18), in insertion
order. -/
def initSyms : List Var := [.sx, .sy, .sz, .dx, .dy, .dz]

/-- Time symbols `t0, t1, ...` appended by `add_all`/`_add_for_h`
(lines 20-26), one per hailstone, in insertion order starting at `i`. -/
def timeSyms (i : Nat) : List H → List Var
  | [] => []
  | _ :: rest => Var.t i :: timeSyms (i + 1) rest

/-- Insertion order of the `Symbols.s` dict after `add_all`: the list
`v = [x for x in self.s.values()]` handed to `sympy.solve` (line 42), which
also fixes the component order of the returned solution tuple. -/
def symbolsFor (hs : List H) : List Var := initSyms ++ timeSyms 0 hs

/-- Equation built at lines 34-37 for hailstone `h` (index `i`) and axis
`ax`: the expression `h.s[ax] + h.d[ax]*t_i - s_ax - d_ax*t_i`, constrained
to be zero by the solver. -/
def eqFor (i : Nat) (h : H) (ax : Nat) : Expr :=
  .sub (.sub (.add (.const (h.s.comp ax)) (.mul (.const (h.d.comp ax)) (.evar (.t i))))
      (.evar (posVar ax)))
    (.mul (.evar (velVar ax)) (.evar (.t i)))

/-- Loop of lines 31-37 starting at hailstone index `i`: three equations
(axes x, y, z) per hailstone, in order. -/
def equationsFrom (i : Nat) : List H → List Expr
  | [] => []
  | h :: rest => eqFor i h 0 :: eqFor i h 1 :: eqFor i h 2 :: equationsFrom (i + 1) rest

/-- The full `equations` list `Symbols.solve` submits to `sympy.solve`
(lines 29-43). -/
def equations (hs : List H) : List Expr := equationsFrom 0 hs

/-- Lines the `solve` method itself prints to standard output before calling
the solver: one line per generated equation (lines 39-40). -/
def solvePrinted (hs : List H) : List Expr := equations hs

/-- Contract of `sympy.solve`: an assignment is one of the tuples the solver
may return exactly when it zeroes every submitted equation. -/
def IsSolution (hs : List H) (a : Var → ℚ) : Prop :=
  ∀ e ∈ equations hs, e.eval a = 0

instance (hs : List H) (a : Var → ℚ) : Decidable (IsSolution hs a) :=
  List.decidableBAll _ _

/-- The system the script submits admits at least one exact solution, i.e.
the modelled `sympy.solve(...)` returns a non-empty list and line 43's
`[0]` indexing yields a solution tuple rather than an error. -/
def Solvable (hs : List H) : Prop := ∃ a : Var → ℚ, IsSolution hs a

/-- The solution tuple of line 43: the solved values listed in the symbol
order of `v` (line 42). -/
def resultTuple (hs : List H) (a : Var → ℚ) : List ℚ := (symbolsFor hs).map a

/-- The value the program reports at line 69:
`result[0] + result[1] + result[2]`. -/
def sumOfPosition (hs : List H) (a : Var → ℚ) : ℚ :=
  (resultTuple hs a).getD 0 0 + (resultTuple hs a).getD 1 0 + (resultTuple hs a).getD 2 0

/-- The pure data `Symbols.solve` feeds the external solver: the equation
list and the joint unknown list. -/
def solvePipeline (hs : List H) : List Expr × List Var := (equations hs, symbolsFor hs)

/-- The five example hailstones `19,13,30 @ -2,1,-2`; `18,19,22 @ -1,-1,-2`;
`20,25,34 @ -2,-2,-4`; `12,31,28 @ -1,-2,-1`; `20,19,15 @ 1,-5,-3`. -/
def canonical : List H :=
  [ ⟨⟨19, 13, 30⟩, ⟨-2, 1, -2⟩⟩,
    ⟨⟨18, 19, 22⟩, ⟨-1, -1, -2⟩⟩,
    ⟨⟨20, 25, 34⟩, ⟨-2, -2, -4⟩⟩,
    ⟨⟨12, 31, 28⟩, ⟨-1, -2, -1⟩⟩,
    ⟨⟨20, 19, 15⟩, ⟨1, -5, -3⟩⟩ ]

/-- The known solution of the example: target `24,13,10 @ -3,1,2`, meeting
the five hailstones at times 5, 3, 4, 6, 1. -/
def canonAssign : Var → ℚ
  | .sx => 24
  | .sy => 13
  | .sz => 10
  | .dx => -3
  | .dy => 1
  | .dz => 2
  | .t 0 => 5
  | .t 1 => 3
  | .t 2 => 4
  | .t 3 => 6
  | .t _ => 1

/-- The two-hailstone input `0,0,0 @ 1,0,0`; `0,1,0 @ 0,1,0`, fewer than the
three hailstones the spec demands. -/
def twoStones : List H :=
  [ ⟨⟨0, 0, 0⟩, ⟨1, 0, 0⟩⟩,
    ⟨⟨0, 1, 0⟩, ⟨0, 1, 0⟩⟩ ]

/-- One exact solution of the `twoStones` system: the target line rests at
the origin with velocity `0,2,0`, meeting the stones at times 0 and 1. -/
def assignA : Var → ℚ
  | .dy => 2
  | .t 1 => 1
  | _ => 0

/-- Another exact solution of the `twoStones` system: target `2,-3,0 @
-1,3,0`, meeting the stones at times 1 and 2; its position sum differs from
that of `assignA`. -/
def assignB : Var → ℚ
  | .sx => 2
  | .sy => -3
  | .dx => -1
  | .dy => 3
  | .t 0 => 1
  | .t 1 => 2
  | _ => 0

/-- Three hailstones sharing the identical velocity `0,1,0`, with collinear
start positions. -/
def sameVel : List H :=
  [ ⟨⟨0, 0, 0⟩, ⟨0, 1, 0⟩⟩,
    ⟨⟨1, 0, 0⟩, ⟨0, 1, 0⟩⟩,
    ⟨⟨2, 0, 0⟩, ⟨0, 1, 0⟩⟩ ]

/-- An exact solution of the `sameVel` system: target `0,0,0 @ 1,1,0`,
meeting the stones at times 0, 1, 2. -/
def assignV : Var → ℚ
  | .dx => 1
  | .dy => 1
  | .t 1 => 1
  | .t 2 => 2
  | _ => 0

/-- Three hailstones sharing the identical velocity `0,0,1`, with
non-collinear start positions; their system has no exact solution. -/
def sameVelStuck : List H :=
  [ ⟨⟨0, 0, 0⟩, ⟨0, 0, 1⟩⟩,
    ⟨⟨1, 0, 0⟩, ⟨0, 0, 1⟩⟩,
    ⟨⟨0, 1, 0⟩, ⟨0, 0, 1⟩⟩ ]

/-- Bit length of a natural number, with explicit fuel (first argument) so
that the recursion is structural. -/
def bitLen : Nat → Nat → Nat
  | 0, _ => 0
  | fuel + 1, m => if m ≤ 1 then m else bitLen fuel (m / 2) + 1

/-- Value of `float(m)` for a natural number `m`: round to the nearest
IEEE-754 double (53-bit significand, ties to even). Exact for `m ≤ 2 ^ 53`. -/
def floatRoundNat (m : Nat) : Nat :=
  if m ≤ 2 ^ 53 then m
  else
    let sh := bitLen m m - 53
    let q := m / 2 ^ sh
    let r := m % 2 ^ sh
    let half := 2 ^ (sh - 1)
    if half < r ∨ (r = half ∧ q % 2 = 1) then (q + 1) * 2 ^ sh else q * 2 ^ sh

/-- Value of Python `float(text)` on the text of an integer `n` (lines
54-55 parse every coordinate this way). -/
def floatRound (n : ℤ) : ℤ :=
  if n < 0 then -(floatRoundNat n.natAbs : ℤ) else (floatRoundNat n.natAbs : ℤ)

/-- The coordinate value the parser stores for the integer `n` written in
the input file: the float result, as an exact rational. -/
def parseCoord (n : ℤ) : ℚ := ((floatRound n : ℤ) : ℚ)

/-- Parsing of one input line `px, py, pz @ vx, vy, vz` (lines 52-56). -/
def parseH (px py pz vx vy vz : ℤ) : H :=
  ⟨⟨parseCoord px, parseCoord py, parseCoord pz⟩,
   ⟨parseCoord vx, parseCoord vy, parseCoord vz⟩⟩

/-! Helper lemmas shared by several results. -/

lemma equationsFrom_length (i : Nat) (hs : List H) :
    (equationsFrom i hs).length = 3 * hs.length := by
  induction hs generalizing i with
  | nil => simp [equationsFrom]
  | cons hd tl ih =>
    simp only [equationsFrom, List.length_cons, ih (i + 1)]
    omega

lemma sumOfPosition_eq (hs : List H) (a : Var → ℚ) :
    sumOfPosition hs a = a Var.sx + a Var.sy + a Var.sz := rfl

lemma timeSyms_eq (i : Nat) (hs : List H) :
    timeSyms i hs = (List.range hs.length).map fun k => Var.t (i + k) := by
  induction hs generalizing i with
  | nil => simp [timeSyms]
  | cons hd tl ih =>
    rw [timeSyms, ih (i + 1), List.length_cons, List.range_succ_eq_map, List.map_cons,
      List.map_map]
    have hf : ((fun k => Var.t (i + k)) ∘ Nat.succ) = fun k => Var.t (i + 1 + k) := by
      funext k
      simp only [Function.comp_apply]
      congr 1
      omega
    rw [hf]
    simp

lemma canonAssign_solves : IsSolution canonical canonAssign := by
  norm_num [IsSolution, equations, equationsFrom, eqFor, Expr.eval, canonical, canonAssign,
    Vec3.comp, posVar, velVar]

/-- Elimination identity: if one hailstone with position components `sp, sq`
and velocity components `cp, cq` on two axes meets the target line (position
`p, q`, velocity `vp, vq` on those axes) at time `t`, the bilinear products
of unknowns collapse to a relation without `t`. -/
lemma crossOf (p q vp vq sp sq cp cq t : ℚ)
    (hp : sp + cp * t - p - vp * t = 0) (hq : sq + cq * t - q - vq * t = 0) :
    (p - sp) * (vq - cq) = (q - sq) * (vp - cp) := by
  linear_combination (cq - vq) * hp - (cp - vp) * hq

/-- C1: on the canonical five-hailstone example, every exact solution of
the system the script submits has target position (24, 13, 10) and velocity
(-3, 1, 2), and line 69 reports the position-component sum 47. -/
theorem canonical_solve_result (a : Var → ℚ) (h : IsSolution canonical a) :
    a Var.sx = 24 ∧ a Var.sy = 13 ∧ a Var.sz = 10 ∧
      a Var.dx = -3 ∧ a Var.dy = 1 ∧ a Var.dz = 2 ∧
      sumOfPosition canonical a = 47 := by
  have e0x : (19 : ℚ) + (-2) * a (.t 0) - a .sx - a .dx * a (.t 0) = 0 := by
    have hh := h (eqFor 0 ⟨⟨19, 13, 30⟩, ⟨-2, 1, -2⟩⟩ 0)
      (by simp [equations, equationsFrom, canonical])
    simp only [Expr.eval, eqFor, Vec3.comp, posVar, velVar] at hh
    linear_combination hh
  have e0y : (13 : ℚ) + 1 * a (.t 0) - a .sy - a .dy * a (.t 0) = 0 := by
    have hh := h (eqFor 0 ⟨⟨19, 13, 30⟩, ⟨-2, 1, -2⟩⟩ 1)
      (by simp [equations, equationsFrom, canonical])
    simp only [Expr.eval, eqFor, Vec3.comp, posVar, velVar] at hh
    linear_combination hh
  have e0z : (30 : ℚ) + (-2) * a (.t 0) - a .sz - a .dz * a (.t 0) = 0 := by
    have hh := h (eqFor 0 ⟨⟨19, 13, 30⟩, ⟨-2, 1, -2⟩⟩ 2)
      (by simp [equations, equationsFrom, canonical])
    simp only [Expr.eval, eqFor, Vec3.comp, posVar, velVar] at hh
    linear_combination hh
  have e1x : (18 : ℚ) + (-1) * a (.t 1) - a .sx - a .dx * a (.t 1) = 0 := by
    have hh := h (eqFor 1 ⟨⟨18, 19, 22⟩, ⟨-1, -1, -2⟩⟩ 0)
      (by simp [equations, equationsFrom, canonical])
    simp only [Expr.eval, eqFor, Vec3.comp, posVar, velVar] at hh
    linear_combination hh
  have e1y : (19 : ℚ) + (-1) * a (.t 1) - a .sy - a .dy * a (.t 1) = 0 := by
    have hh := h (eqFor 1 ⟨⟨18, 19, 22⟩, ⟨-1, -1, -2⟩⟩ 1)
      (by simp [equations, equationsFrom, canonical])
    simp only [Expr.eval, eqFor, Vec3.comp, posVar, velVar] at hh
    linear_combination hh
  have e1z : (22 : ℚ) + (-2) * a (.t 1) - a .sz - a .dz * a (.t 1) = 0 := by
    have hh := h (eqFor 1 ⟨⟨18, 19, 22⟩, ⟨-1, -1, -2⟩⟩ 2)
      (by simp [equations, equationsFrom, canonical])
    simp only [Expr.eval, eqFor, Vec3.comp, posVar, velVar] at hh
    linear_combination hh
  have e2x : (20 : ℚ) + (-2) * a (.t 2) - a .sx - a .dx * a (.t 2) = 0 := by
    have hh := h (eqFor 2 ⟨⟨20, 25, 34⟩, ⟨-2, -2, -4⟩⟩ 0)
      (by simp [equations, equationsFrom, canonical])
    simp only [Expr.eval, eqFor, Vec3.comp, posVar, velVar] at hh
    linear_combination hh
  have e2y : (25 : ℚ) + (-2) * a (.t 2) - a .sy - a .dy * a (.t 2) = 0 := by
    have hh := h (eqFor 2 ⟨⟨20, 25, 34⟩, ⟨-2, -2, -4⟩⟩ 1)
      (by simp [equations, equationsFrom, canonical])
    simp only [Expr.eval, eqFor, Vec3.comp, posVar, velVar] at hh
    linear_combination hh
  have e2z : (34 : ℚ) + (-4) * a (.t 2) - a .sz - a .dz * a (.t 2) = 0 := by
    have hh := h (eqFor 2 ⟨⟨20, 25, 34⟩, ⟨-2, -2, -4⟩⟩ 2)
      (by simp [equations, equationsFrom, canonical])
    simp only [Expr.eval, eqFor, Vec3.comp, posVar, velVar] at hh
    linear_combination hh
  have c0xy := crossOf (a .sx) (a .sy) (a .dx) (a .dy) 19 13 (-2) 1 (a (.t 0)) e0x e0y
  have c0xz := crossOf (a .sx) (a .sz) (a .dx) (a .dz) 19 30 (-2) (-2) (a (.t 0)) e0x e0z
  have c0yz := crossOf (a .sy) (a .sz) (a .dy) (a .dz) 13 30 1 (-2) (a (.t 0)) e0y e0z
  have c1xy := crossOf (a .sx) (a .sy) (a .dx) (a .dy) 18 19 (-1) (-1) (a (.t 1)) e1x e1y
  have c1xz := crossOf (a .sx) (a .sz) (a .dx) (a .dz) 18 22 (-1) (-2) (a (.t 1)) e1x e1z
  have c1yz := crossOf (a .sy) (a .sz) (a .dy) (a .dz) 19 22 (-1) (-2) (a (.t 1)) e1y e1z
  have c2xy := crossOf (a .sx) (a .sy) (a .dx) (a .dy) 20 25 (-2) (-2) (a (.t 2)) e2x e2y
  have c2xz := crossOf (a .sx) (a .sz) (a .dx) (a .dz) 20 34 (-2) (-4) (a (.t 2)) e2x e2z
  have c2yz := crossOf (a .sy) (a .sz) (a .dy) (a .dz) 25 34 (-2) (-4) (a (.t 2)) e2y e2z
  have l1 : (-2) * a .sx - a .sy - 6 * a .dx - a .dy + 44 = 0 := by
    linear_combination c0xy - c1xy
  have l2 : -a .sz + 8 * a .dx - a .dz + 36 = 0 := by
    linear_combination c0xz - c1xz
  have l3 : 2 * a .sz + 8 * a .dy + 6 * a .dz - 40 = 0 := by
    linear_combination c0yz - c1yz
  have l4 : (-3) * a .sx - 12 * a .dx + a .dy + 35 = 0 := by
    linear_combination c0xy - c2xy
  have l5 : (-2) * a .sx - 4 * a .dx + a .dz + 34 = 0 := by
    linear_combination c0xz - c2xz
  have l6 : (-2) * a .sy + 3 * a .sz - 4 * a .dy + 12 * a .dz - 24 = 0 := by
    linear_combination c0yz - c2yz
  have hx : a Var.sx = 24 := by linarith
  have hy : a Var.sy = 13 := by linarith
  have hz : a Var.sz = 10 := by linarith
  have hdx : a Var.dx = -3 := by linarith
  have hdy : a Var.dy = 1 := by linarith
  have hdz : a Var.dz = 2 := by linarith
  refine ⟨hx, hy, hz, hdx, hdy, hdz, ?_⟩
  rw [sumOfPosition_eq, hx, hy, hz]
  norm_num

/-- C1 witness: the known example solution satisfies the submitted system,
and the theorem evaluates as expected on it. -/
theorem canonical_solve_result_check :
    IsSolution canonical canonAssign ∧
      (canonAssign Var.sx = 24 ∧ canonAssign Var.sy = 13 ∧ canonAssign Var.sz = 10 ∧
        canonAssign Var.dx = -3 ∧ canonAssign Var.dy = 1 ∧ canonAssign Var.dz = 2 ∧
        sumOfPosition canonical canonAssign = 47) :=
  ⟨canonAssign_solves, canonical_solve_result canonAssign canonAssign_solves⟩

/-- C2: whenever the solver returns a tuple, the value reported at line 69
is exactly the sum of the three position components of that tuple — no
velocity or time component enters it. -/
theorem reported_value_is_position_sum (hs : List H) (a : Var → ℚ)
    (_h : IsSolution hs a) :
    sumOfPosition hs a = a Var.sx + a Var.sy + a Var.sz :=
  sumOfPosition_eq hs a

/-- C2 witness: the reported value on the canonical example is the position
sum of the returned tuple. -/
theorem reported_value_is_position_sum_check :
    sumOfPosition canonical canonAssign =
      canonAssign Var.sx + canonAssign Var.sy + canonAssign Var.sz :=
  reported_value_is_position_sum canonical canonAssign canonAssign_solves

lemma t_mem_equationsFrom (j i : Nat) (hs : List H) (hi : i < hs.length) :
    ∃ e ∈ equationsFrom j hs, Var.t (j + i) ∈ e.varList := by
  induction hs generalizing j i with
  | nil => simp at hi
  | cons hd tl ih =>
    cases i with
    | zero =>
      refine ⟨eqFor j hd 0, List.mem_cons_self _ _, ?_⟩
      simp [eqFor, Expr.varList]
    | succ k =>
      have hk : k < tl.length := by
        simpa using hi
      obtain ⟨e, he, hv⟩ := ih (j + 1) k hk
      refine ⟨e, ?_, ?_⟩
      · exact List.mem_cons_of_mem _ (List.mem_cons_of_mem _ (List.mem_cons_of_mem _ he))
      · have hjk : j + (k + 1) = j + 1 + k := by omega
        rw [hjk]
        exact hv

lemma t_mem_timeSyms (j i : Nat) (hs : List H) (hi : i < hs.length) :
    Var.t (j + i) ∈ timeSyms j hs := by
  induction hs generalizing j i with
  | nil => simp at hi
  | cons hd tl ih =>
    cases i with
    | zero => simp [timeSyms]
    | succ k =>
      have hk : k < tl.length := by
        simpa using hi
      have hjk : j + (k + 1) = j + 1 + k := by omega
      rw [timeSyms, hjk]
      exact List.mem_cons_of_mem _ (ih (j + 1) k hk)

/-- C3 counterexample: on the canonical input the very first expression
handed to the generic solver mentions the time symbol `t0`, and `t0` is one
of the unknowns the solver is asked to solve for. -/
theorem time_symbols_reach_solver :
    Var.t 0 ∈ Expr.varList ((equations canonical).getD 0 (Expr.const 0)) ∧
      Var.t 0 ∈ symbolsFor canonical := by
  constructor
  · simp [equations, equationsFrom, canonical, eqFor, Expr.varList]
  · simp [symbolsFor, initSyms, timeSyms, canonical]

/-- C3 amended: for every input and every hailstone index, some equation
submitted to the generic solver mentions that hailstone's time unknown, and
that time unknown is part of the joint unknown list of line 42 — times are
solved jointly, not eliminated. -/
theorem times_are_solved_jointly (hs : List H) (i : Nat) (hi : i < hs.length) :
    (∃ e ∈ equations hs, Var.t i ∈ e.varList) ∧ Var.t i ∈ symbolsFor hs := by
  constructor
  · have h := t_mem_equationsFrom 0 i hs hi
    simpa [equations] using h
  · have h := t_mem_timeSyms 0 i hs hi
    simp only [symbolsFor, List.mem_append]
    right
    simpa using h

/-- C3 amended witness: instantiated at the canonical input and `t0`. -/
theorem times_are_solved_jointly_check :
    (∃ e ∈ equations canonical, Var.t 0 ∈ e.varList) ∧ Var.t 0 ∈ symbolsFor canonical :=
  times_are_solved_jointly canonical 0 (by simp [canonical])

/-- C4 counterexample: the canonical input has five hailstones (at least
three), yet the script submits 15 equations to the solver, not 6. -/
theorem equations_count_canonical :
    canonical.length = 5 ∧ (equations canonical).length = 15 ∧
      (equations canonical).length ≠ 6 := by
  refine ⟨by simp [canonical], ?_, ?_⟩ <;>
    simp [equations, equationsFrom, canonical]

/-- C4 amended: for every input the script builds three equations per
hailstone — one per axis, `3 · N` in total, with no pairing and no
elimination — and submits all of them to the generic solver. -/
theorem equations_count (hs : List H) : (equations hs).length = 3 * hs.length := by
  simpa [equations] using equationsFrom_length 0 hs

/-- C5 counterexample: a two-hailstone input is not rejected: the submitted
system has an exact solution, so the modelled solver returns a tuple and the
program reports a number; no typed `InsufficientData` failure exists in the
script. -/
theorem two_stones_still_solved : twoStones.length < 3 ∧ Solvable twoStones := by
  refine ⟨by simp [twoStones], ⟨assignA, ?_⟩⟩
  norm_num [IsSolution, equations, equationsFrom, eqFor, Expr.eval, twoStones, assignA,
    Vec3.comp, posVar, velVar]

/-- C5 amended: the script performs no input-size check and has no typed
errors; with fewer than three hailstones the submitted system is
underdetermined — it admits several exact solutions whose reported position
sums differ — and the program reports whichever tuple the generic solver
lists first. -/
theorem two_stones_underdetermined :
    twoStones.length < 3 ∧ IsSolution twoStones assignA ∧ IsSolution twoStones assignB ∧
      sumOfPosition twoStones assignA ≠ sumOfPosition twoStones assignB := by
  refine ⟨by simp [twoStones], ?_, ?_, ?_⟩
  · norm_num [IsSolution, equations, equationsFrom, eqFor, Expr.eval, twoStones, assignA,
      Vec3.comp, posVar, velVar]
  · norm_num [IsSolution, equations, equationsFrom, eqFor, Expr.eval, twoStones, assignB,
      Vec3.comp, posVar, velVar]
  · rw [sumOfPosition_eq, sumOfPosition_eq]
    norm_num [assignA, assignB]

/-- C6 counterexample: an input whose hailstones all share the velocity
`0,1,0` (with collinear starts) is not rejected: its system has an exact
solution, so the modelled solver returns a tuple and the program reports a
number rather than failing with a typed error. -/
theorem identical_velocities_still_solved :
    (∀ h ∈ sameVel, h.d = Vec3.mk 0 1 0) ∧ Solvable sameVel := by
  refine ⟨by simp [sameVel], ⟨assignV, ?_⟩⟩
  norm_num [IsSolution, equations, equationsFrom, eqFor, Expr.eval, sameVel, assignV,
    Vec3.comp, posVar, velVar]

/-- C6 amended: the script performs no degeneracy detection. An input of
identical-velocity hailstones may still admit exact solutions, which the
solver returns as a numeric answer; when the starts are not collinear the
system has no solution at all, and line 43's `[0]` indexing of the empty
solution list fails with an untyped runtime error, not with
`DegenerateSystem` or `InsufficientData`. -/
theorem identical_velocities_not_detected :
    Solvable sameVel ∧ ¬ Solvable sameVelStuck := by
  constructor
  · refine ⟨assignV, ?_⟩
    norm_num [IsSolution, equations, equationsFrom, eqFor, Expr.eval, sameVel, assignV,
      Vec3.comp, posVar, velVar]
  · rintro ⟨a, h⟩
    have e0x : a Var.sx + a Var.dx * a (Var.t 0) = 0 := by
      have hh := h (eqFor 0 ⟨⟨0, 0, 0⟩, ⟨0, 0, 1⟩⟩ 0)
        (by simp [equations, equationsFrom, sameVelStuck])
      simp only [Expr.eval, eqFor, Vec3.comp, posVar, velVar] at hh
      linear_combination -hh
    have e1x : a Var.sx + a Var.dx * a (Var.t 1) = 1 := by
      have hh := h (eqFor 1 ⟨⟨1, 0, 0⟩, ⟨0, 0, 1⟩⟩ 0)
        (by simp [equations, equationsFrom, sameVelStuck])
      simp only [Expr.eval, eqFor, Vec3.comp, posVar, velVar] at hh
      linear_combination -hh
    have e0y : a Var.sy + a Var.dy * a (Var.t 0) = 0 := by
      have hh := h (eqFor 0 ⟨⟨0, 0, 0⟩, ⟨0, 0, 1⟩⟩ 1)
        (by simp [equations, equationsFrom, sameVelStuck])
      simp only [Expr.eval, eqFor, Vec3.comp, posVar, velVar] at hh
      linear_combination -hh
    have e1y : a Var.sy + a Var.dy * a (Var.t 1) = 0 := by
      have hh := h (eqFor 1 ⟨⟨1, 0, 0⟩, ⟨0, 0, 1⟩⟩ 1)
        (by simp [equations, equationsFrom, sameVelStuck])
      simp only [Expr.eval, eqFor, Vec3.comp, posVar, velVar] at hh
      linear_combination -hh
    have e2y : a Var.sy + a Var.dy * a (Var.t 2) = 1 := by
      have hh := h (eqFor 2 ⟨⟨0, 1, 0⟩, ⟨0, 0, 1⟩⟩ 1)
        (by simp [equations, equationsFrom, sameVelStuck])
      simp only [Expr.eval, eqFor, Vec3.comp, posVar, velVar] at hh
      linear_combination -hh
    have p1 : a Var.dx * (a (Var.t 1) - a (Var.t 0)) = 1 := by
      linear_combination e1x - e0x
    have p2 : a Var.dy * (a (Var.t 1) - a (Var.t 0)) = 0 := by
      linear_combination e1y - e0y
    have p3 : a Var.dy * (a (Var.t 2) - a (Var.t 0)) = 1 := by
      linear_combination e2y - e0y
    rcases mul_eq_zero.mp p2 with hdy | ht
    · rw [hdy, zero_mul] at p3
      exact one_ne_zero p3.symm
    · rw [ht, mul_zero] at p1
      exact one_ne_zero p1.symm

/-- C7 counterexample: parsing goes through Python `float`, which is not
exact on integers: the coordinate 9007199254740993 = 2^53 + 1 parses to
9007199254740992, a different value. -/
theorem float_parsing_inexact :
    parseCoord 9007199254740993 ≠ ((9007199254740993 : ℤ) : ℚ) ∧
      parseCoord 9007199254740993 = ((9007199254740992 : ℤ) : ℚ) := by
  constructor
  · decide
  · decide

/-- C7 amended: the script parses coordinates as floating point, not as
exact integers; the parsed value is nevertheless exact for every integer of
magnitude at most 2^53 (which covers the canonical example and puzzle-scale
inputs), and only beyond that bound does parsing lose exactness. -/
theorem float_parsing_exact_below_pow53 (n : ℤ) (h : n.natAbs ≤ 2 ^ 53) :
    parseCoord n = (n : ℚ) := by
  have hr : floatRoundNat n.natAbs = n.natAbs := by
    unfold floatRoundNat
    rw [if_pos h]
  have hfr : floatRound n = n := by
    unfold floatRound
    split_ifs with hn <;> rw [hr] <;> omega
  unfold parseCoord
  rw [hfr]

/-- C7 amended witness: the canonical coordinate 19 parses exactly. -/
theorem float_parsing_exact_below_pow53_check :
    (19 : ℤ).natAbs ≤ 2 ^ 53 ∧ parseCoord 19 = ((19 : ℤ) : ℚ) :=
  ⟨by decide, float_parsing_exact_below_pow53 19 (by decide)⟩

/-- C8: the solve pipeline is deterministic — equal inputs give identical
equations and unknown lists to the solver, hence identical solution sets. -/
theorem solve_deterministic (hs₁ hs₂ : List H) (h : hs₁ = hs₂) :
    solvePipeline hs₁ = solvePipeline hs₂ ∧
      ∀ a : Var → ℚ, (IsSolution hs₁ a ↔ IsSolution hs₂ a) := by
  subst h
  exact ⟨rfl, fun a => Iff.rfl⟩

/-- C8 witness: instantiated at the canonical input. -/
theorem solve_deterministic_check :
    solvePipeline canonical = solvePipeline canonical ∧
      ∀ a : Var → ℚ, (IsSolution canonical a ↔ IsSolution canonical a) :=
  solve_deterministic canonical canonical rfl

/-- C9 counterexample: `Symbols.solve` is not print-free — on the canonical
input the loop at lines 39-40 prints all 15 generated equations to standard
output before the solver is invoked. -/
theorem solve_prints_equations :
    solvePrinted canonical ≠ [] ∧ (solvePrinted canonical).length = 15 := by
  constructor <;> simp [solvePrinted, equations, equationsFrom, canonical]

/-- C9 amended: apart from printing each of the `3 · N` generated equations
to standard output (lines 39-40), `Symbols.solve` is a pure computation:
what it hands the solver and what it returns depend only on the input. -/
theorem solve_prints_three_per_hailstone (hs : List H) :
    (solvePrinted hs).length = 3 * hs.length := by
  simpa [solvePrinted, equations] using equationsFrom_length 0 hs

/-- C10: the symbol table enumerates the unknowns in the fixed insertion
order `sx, sy, sz, dx, dy, dz, t0, ..., t(N-1)`, so the first three entries
of the solution tuple are the target position components and the reported
sum ranges over exactly those three entries. -/
theorem symbol_table_order (hs : List H) :
    symbolsFor hs =
        [Var.sx, Var.sy, Var.sz, Var.dx, Var.dy, Var.dz] ++
          (List.range hs.length).map Var.t ∧
      ∀ a : Var → ℚ, sumOfPosition hs a = a Var.sx + a Var.sy + a Var.sz := by
  constructor
  · rw [symbolsFor, timeSyms_eq 0 hs]
    simp [initSyms]
  · intro a
    exact sumOfPosition_eq hs a
